import Mathlib

/-!
# A verification development for a Monkey-style interpreter written in Rust

This file gives a shallow embedding, in Lean 4, of the core of a small
tree-walking interpreter: its operator/precedence tables (`operator.rs`,
`token.rs`), its AST and source renderer (`ast.rs`), its lexer (`lexer.rs`),
its Pratt parser (`parser.rs`), its environment chain (`environment.rs`,
with the `Rc<RefCell<Environment>>` shared-mutable links modelled as indices
into an explicit heap of environments), its runtime objects (`object.rs`)
and its evaluator (`evaluator.rs`).

Modelling conventions, used consistently below:

* Rust `i32` is modelled as `Int`; the arithmetic of the evaluator applies
  an explicit 32-bit two's-complement wrap (`wrap32`), matching release-mode
  overflow semantics. Division by zero and the overflowing division
  `i32::MIN / -1` panic in Rust in every build mode, and are modelled by an
  explicit `panic` outcome, as are the interpreter's `unreachable!()` arms.
* `Rc<RefCell<Environment>>` is modelled as a `Nat` index into a heap
  (`Heap := List Environment`); cloning an `Rc` clones the index, borrowing
  reads the heap entry, and `borrow_mut` updates it in place, so every
  holder of the same index observes each mutation, exactly like the shared
  mutable cell.
* The recursive interpreter and parser functions take an explicit fuel
  argument and return a `timeout` outcome when it runs out; the fuel is
  decremented on every (mutual) recursive call. Rust's recursion is bounded
  only by the machine stack, so `timeout`-free results coincide with the
  Rust behaviour.
* Names follow the Rust source. `operator::Prefix` and `operator::Infix`
  are rendered `PrefixOp` and `InfixOp`, and the precedence level
  `Precedences::Prefix` is rendered `Precedences.PrefixLv`, because
  `prefix` and `infix` are Lean notation keywords.
-/

/-! ## `operator.rs` -/

/-- `operator::Prefix` from `operator.rs`. -/
inductive PrefixOp where
  | Minus
  | Exclamation
deriving DecidableEq, Repr

/-- `operator::Infix` from `operator.rs`. -/
inductive InfixOp where
  | Plus
  | Minus
  | Asterisk
  | Slash
  | LessThan
  | GreaterThan
  | Equal
  | NotEqual
deriving DecidableEq, Repr

/-- `operator::Precedences` from `operator.rs`. Rust derives `PartialOrd`,
which orders the variants in declaration order; `toNat` below exposes that
order. -/
inductive Precedences where
  | Lowest
  | Equals
  | LessGreater
  | Sum
  | Product
  | PrefixLv
  | Call
deriving DecidableEq, Repr

/-- The declaration-order rank underlying the derived `PartialOrd` of
`operator::Precedences`. -/
def Precedences.toNat : Precedences → Nat
  | .Lowest => 0
  | .Equals => 1
  | .LessGreater => 2
  | .Sum => 3
  | .Product => 4
  | .PrefixLv => 5
  | .Call => 6

/-- `a < b` on `operator::Precedences` (the derived `PartialOrd`). -/
def Precedences.lt (a b : Precedences) : Prop := a.toNat < b.toNat

instance (a b : Precedences) : Decidable (a.lt b) :=
  inferInstanceAs (Decidable (a.toNat < b.toNat))

/-- `Prefix::to_code` from `operator.rs`. -/
def PrefixOp.to_code : PrefixOp → String
  | .Minus => "-"
  | .Exclamation => "!"

/-- `Infix::to_code` from `operator.rs`. -/
def InfixOp.to_code : InfixOp → String
  | .Plus => "+"
  | .Minus => "-"
  | .Asterisk => "*"
  | .Slash => "/"
  | .LessThan => "<"
  | .GreaterThan => ">"
  | .Equal => "=="
  | .NotEqual => "!="

/-! ## `token.rs` -/

/-- `token::Token` from `token.rs`. -/
inductive Token where
  | Illegal
  | EndOfFile
  | Identifier (s : String)
  | Integer (i : Int)
  | Assign
  | Plus
  | Minus
  | Exclamation
  | Asterisk
  | Slash
  | LessThan
  | GreaterThan
  | Equal
  | NotEqual
  | Comma
  | Semicolon
  | Lparentheses
  | Rparentheses
  | Lbrace
  | Rbrace
  | Function
  | Let
  | True
  | False
  | If
  | Else
  | Return
deriving DecidableEq, Repr

/-- `Token::precedence` from `token.rs`: the single precedence table the
parser consults. -/
def Token.precedence : Token → Precedences
  | .Equal | .NotEqual => .Equals
  | .LessThan | .GreaterThan => .LessGreater
  | .Plus | .Minus => .Sum
  | .Slash | .Asterisk => .Product
  | .Lparentheses => .Call
  | _ => .Lowest

/-- The token each infix operator lexes from (the inverse of the
operator match in `Parser::parse_infix_expression`), used to phrase the
universal nesting property through the `Token::precedence` table. -/
def InfixOp.token : InfixOp → Token
  | .Plus => Token.Plus
  | .Minus => Token.Minus
  | .Asterisk => Token.Asterisk
  | .Slash => Token.Slash
  | .LessThan => Token.LessThan
  | .GreaterThan => Token.GreaterThan
  | .Equal => Token.Equal
  | .NotEqual => Token.NotEqual

/-! ## `ast.rs` -/

mutual
/-- `ast::Statement` from `ast.rs`. -/
inductive Statement where
  | Let (identifier : Expression) (value : Expression)
  | Return (e : Expression)
  | Expression (e : Expression)
  | Block (statements : List Statement)

/-- `ast::Expression` from `ast.rs`. -/
inductive Expression where
  | Illegal
  | Identifier (s : String)
  | Integer (i : Int)
  | Boolean (b : Bool)
  | PrefixExpression (operator : PrefixOp) (expression : Expression)
  | InfixExpression (left : Expression) (operator : InfixOp) (right : Expression)
  | IfExpression (condition : Expression) (consequence : Statement)
      (alternative : Option Statement)
  | Function (parameters : List Expression) (body : Statement)
  | Call (function : Expression) (args : List Expression)
end

/-- `ast::Program` from `ast.rs`. -/
structure Program where
  statements : List Statement

mutual
/-- `Statement::to_code` from `ast.rs`. -/
def Statement.to_code : Statement → String
  | .Let identifier value =>
      "let " ++ identifier.to_code ++ " = " ++ value.to_code ++ ";"
  | .Return expression => "return " ++ expression.to_code ++ ";"
  | .Expression expression => expression.to_code ++ ";"
  | .Block statements => "\x7b" ++ Statement.listToCode statements ++ "\n\x7d"

/-- The `Block` loop of `Statement::to_code`: each statement preceded by a
newline. -/
def Statement.listToCode : List Statement → String
  | [] => ""
  | statement :: rest => "\n" ++ statement.to_code ++ Statement.listToCode rest

/-- `Expression::to_code` from `ast.rs`. -/
def Expression.to_code : Expression → String
  | .Identifier identifier => identifier
  | .Integer integer => toString integer
  | .Boolean boolean => if boolean then "true" else "false"
  | .PrefixExpression operator expression =>
      "(" ++ operator.to_code ++ expression.to_code ++ ")"
  | .InfixExpression left operator right =>
      "(" ++ left.to_code ++ " " ++ operator.to_code ++ " " ++ right.to_code ++ ")"
  | .IfExpression condition consequence alternative =>
      let alt :=
        match alternative with
        | some alternative => "else " ++ alternative.to_code
        | none => ""
      "if " ++ condition.to_code ++ " " ++ consequence.to_code ++ " " ++ alt
  | .Function parameters body =>
      "fn(" ++ String.intercalate ", " (Expression.listToCodes parameters) ++ ")"
        ++ body.to_code
  | .Call function args =>
      function.to_code ++ "(" ++ String.intercalate ", " (Expression.listToCodes args)
        ++ ")"
  | .Illegal => "[illegal expression]"

/-- The parameter/argument rendering loop shared by the `Function` and
`Call` arms of `Expression::to_code`. -/
def Expression.listToCodes : List Expression → List String
  | [] => []
  | e :: rest => e.to_code :: Expression.listToCodes rest
end

/-- `Program::to_code` from `ast.rs`: each statement followed by `'\n'`. -/
def Program.to_code (p : Program) : String :=
  String.join (p.statements.map fun statement => statement.to_code ++ "\n")

/-! ## `lexer.rs`

The lexer holds the not-yet-pulled characters (`std::str::Chars`) plus one
current and one lookahead character; the end of input is padded with
`'\x00'`, exactly as in the Rust source. -/

/-- `lexer::Lexer` from `lexer.rs`. -/
structure Lexer where
  input : List Char
  current_char : Char
  next_char : Char
deriving Repr

/-- `Lexer::seek_char` from `lexer.rs`. -/
def Lexer.seek_char (l : Lexer) : Lexer :=
  Lexer.mk l.input.tail l.next_char (l.input.headD '\x00')

/-- `Lexer::new` from `lexer.rs`: two priming seeks. -/
def Lexer.new (input : List Char) : Lexer :=
  (Lexer.mk input '\x00' '\x00').seek_char.seek_char

/-- `is_digit` from `lexer.rs`. -/
def is_digit (ch : Char) : Bool := '0' ≤ ch ∧ ch ≤ '9'

/-- `is_letter` from `lexer.rs`. -/
def is_letter (ch : Char) : Bool :=
  ('a' ≤ ch ∧ ch ≤ 'z') ∨ ('A' ≤ ch ∧ ch ≤ 'Z') ∨ ch = '_'

/-- The loop of `Lexer::skip_whitespace`, bounded by fuel; every iteration
consumes a character, so `input.length + 2` iterations always suffice. -/
def skipWhitespaceAux : Nat → Lexer → Lexer
  | 0, l => l
  | f + 1, l =>
    if l.current_char = ' ' ∨ l.current_char = '\t' ∨ l.current_char = '\n'
        ∨ l.current_char = '\r' then
      skipWhitespaceAux f l.seek_char
    else l

/-- `Lexer::skip_whitespace` from `lexer.rs`. -/
def Lexer.skip_whitespace (l : Lexer) : Lexer :=
  skipWhitespaceAux (l.input.length + 2) l

/-- The loop of `Lexer::read_by_checker`, bounded by fuel; as for
`skip_whitespace`, `input.length + 2` iterations always suffice. -/
def readByCheckerAux : Nat → (Char → Bool) → Lexer → String → String × Lexer
  | 0, _, l, acc => (acc, l)
  | f + 1, checker_fn, l, acc =>
    if checker_fn l.current_char then
      readByCheckerAux f checker_fn l.seek_char (acc.push l.current_char)
    else (acc, l)

/-- `Lexer::read_by_checker` from `lexer.rs`. -/
def Lexer.read_by_checker (l : Lexer) (checker_fn : Char → Bool) : String × Lexer :=
  readByCheckerAux (l.input.length + 2) checker_fn l ""

/-- `Lexer::lookup_identifier` from `lexer.rs`. -/
def Lexer.lookup_identifier (identifier : String) : Token :=
  if identifier = "fn" then Token.Function
  else if identifier = "let" then Token.Let
  else if identifier = "true" then Token.True
  else if identifier = "false" then Token.False
  else if identifier = "if" then Token.If
  else if identifier = "else" then Token.Else
  else if identifier = "return" then Token.Return
  else Token.Identifier identifier

/-- The decimal accumulation loop of `str::parse`. -/
def parseIntDigitsAux : List Char → Nat → Nat
  | [], acc => acc
  | c :: rest, acc => parseIntDigitsAux rest (acc * 10 + (c.toNat - 48))

/-- `number_str.parse::<i32>().unwrap()` on a digit string (overflow above
`i32::MAX`, which would panic in Rust, is not modelled; no claim exercises
it). -/
def parseIntDigits (s : String) : Int :=
  Int.ofNat (parseIntDigitsAux s.toList 0)

/-- `Lexer::next_token` from `lexer.rs` (called `read_next_token` at its
use site in `parser.rs`), returning the token together with the advanced
lexer. -/
def Lexer.read_next_token (l : Lexer) : Token × Lexer :=
  let l := l.skip_whitespace
  if l.current_char = '=' then
    if l.next_char = '=' then (Token.Equal, l.seek_char.seek_char)
    else (Token.Assign, l.seek_char)
  else if l.current_char = ';' then (Token.Semicolon, l.seek_char)
  else if l.current_char = '(' then (Token.Lparentheses, l.seek_char)
  else if l.current_char = ')' then (Token.Rparentheses, l.seek_char)
  else if l.current_char = ',' then (Token.Comma, l.seek_char)
  else if l.current_char = '+' then (Token.Plus, l.seek_char)
  else if l.current_char = '-' then (Token.Minus, l.seek_char)
  else if l.current_char = '!' then
    if l.next_char = '=' then (Token.NotEqual, l.seek_char.seek_char)
    else (Token.Exclamation, l.seek_char)
  else if l.current_char = '/' then (Token.Slash, l.seek_char)
  else if l.current_char = '*' then (Token.Asterisk, l.seek_char)
  else if l.current_char = '<' then (Token.LessThan, l.seek_char)
  else if l.current_char = '>' then (Token.GreaterThan, l.seek_char)
  else if l.current_char = '{' then (Token.Lbrace, l.seek_char)
  else if l.current_char = '}' then (Token.Rbrace, l.seek_char)
  else if l.current_char = '\x00' then (Token.EndOfFile, l.seek_char)
  else if is_letter l.current_char then
    let (identifier, l) := l.read_by_checker is_letter
    (Lexer.lookup_identifier identifier, l)
  else if is_digit l.current_char then
    let (number_str, l) := l.read_by_checker is_digit
    (Token.Integer (parseIntDigits number_str), l)
  else (Token.Illegal, l.seek_char)

/-! ## `error.rs` -/

/-- `error::ParserError` from `error.rs`. -/
inductive ParserError where
  | UnexpectedToken (actual_token expected_token : Token)
  | NotFoundInfixToken (found_token : Token)
  | NotFoundLetIdentifier (found_token : Token)
  | UnImplementationStatemant (msg : String)
  | UnImplementationParser (msg : String)
deriving DecidableEq, Repr

/-! ## `parser.rs`

Each `parse_*` method of `Parser` takes and returns the parser state
(lexer plus the current token and one token of lookahead); `Result` is
rendered as `PRes`, whose extra `timeout` constructor reports exhausted
fuel. -/

/-- The `Parser` struct from `parser.rs`. -/
structure ParserState where
  lexer : Lexer
  current_token : Token
  next_token : Token
deriving Repr

/-- `Parser::seek_token` from `parser.rs`. -/
def ParserState.seek_token (p : ParserState) : ParserState :=
  let (tok, lexer) := p.lexer.read_next_token
  ParserState.mk lexer p.next_token tok

/-- `Parser::new` from `parser.rs`: two priming seeks. -/
def Parser.new (lexer : Lexer) : ParserState :=
  (ParserState.mk lexer Token.Illegal Token.Illegal).seek_token.seek_token

/-- The result of a `parse_*` method: a value plus the advanced parser
state, a `ParserError`, or exhausted fuel. -/
inductive PRes (α : Type) where
  | ok (val : α) (p : ParserState)
  | error (e : ParserError)
  | timeout
deriving Repr

/-- The `?` operator on parser results. -/
def PRes.bind {α β : Type} : PRes α → (α → ParserState → PRes β) → PRes β
  | .ok a p, f => f a p
  | .error e, _ => .error e
  | .timeout, _ => .timeout

/-- `Parser::expect_current` from `parser.rs`. -/
def expect_current (p : ParserState) (token : Token) : PRes Unit :=
  if p.current_token = token then .ok () p
  else .error (ParserError.UnexpectedToken p.current_token token)

/-- The infix-token match of `Parser::parse_infix_expression`. -/
def infixFromToken : Token → Option InfixOp
  | Token.Plus => some InfixOp.Plus
  | Token.Minus => some InfixOp.Minus
  | Token.Asterisk => some InfixOp.Asterisk
  | Token.Slash => some InfixOp.Slash
  | Token.LessThan => some InfixOp.LessThan
  | Token.GreaterThan => some InfixOp.GreaterThan
  | Token.Equal => some InfixOp.Equal
  | Token.NotEqual => some InfixOp.NotEqual
  | _ => none

/-- `Parser::parse_identifier` from `parser.rs`. -/
def parse_identifier (p : ParserState) (identifier : String) : PRes Expression :=
  .ok (Expression.Identifier identifier) p

/-- `Parser::parse_integer` from `parser.rs`. -/
def parse_integer (p : ParserState) (integer : Int) : PRes Expression :=
  .ok (Expression.Integer integer) p

/-- `Parser::parse_boolean` from `parser.rs`. -/
def parse_boolean (p : ParserState) (boolean : Bool) : PRes Expression :=
  .ok (Expression.Boolean boolean) p

mutual

/-- The `while` loop of `Parser::parse_program`: parse a statement, push
it, seek to the next statement, until `EndOfFile`. -/
def parse_program_loop : Nat → ParserState → List Statement → PRes Program
  | 0, _, _ => .timeout
  | f + 1, p, acc =>
    if p.current_token = Token.EndOfFile then .ok (Program.mk acc) p
    else
      (parse_statement f p).bind fun statement p =>
        parse_program_loop f p.seek_token (acc ++ [statement])
  termination_by structural f => f

/-- `Parser::parse_statement` from `parser.rs`. -/
def parse_statement : Nat → ParserState → PRes Statement
  | 0, _ => .timeout
  | f + 1, p =>
    match p.current_token with
    | Token.Let => parse_let_statement f p
    | Token.Return => parse_return_statement f p
    | _ => parse_expression_statement f p
  termination_by structural f => f

/-- `Parser::parse_let_statement` from `parser.rs`. Note that on a missing
identifier the source reports `next_token` (after the initial seek) as the
found token. -/
def parse_let_statement : Nat → ParserState → PRes Statement
  | 0, _ => .timeout
  | f + 1, p =>
    let p := p.seek_token
    match p.current_token with
    | Token.Identifier ident =>
      let identifier := Expression.Identifier ident
      let p := p.seek_token
      (expect_current p Token.Assign).bind fun _ p =>
      let p := p.seek_token
      (parse_expression f Precedences.Lowest p).bind fun expression p =>
      let p := if p.next_token = Token.Semicolon then p.seek_token else p
      .ok (Statement.Let identifier expression) p
    | _ => .error (ParserError.NotFoundLetIdentifier p.next_token)
  termination_by structural f => f

/-- `Parser::parse_return_statement` from `parser.rs`. -/
def parse_return_statement : Nat → ParserState → PRes Statement
  | 0, _ => .timeout
  | f + 1, p =>
    let p := p.seek_token
    (parse_expression f Precedences.Lowest p).bind fun expression p =>
    let p := if p.next_token = Token.Semicolon then p.seek_token else p
    .ok (Statement.Return expression) p
  termination_by structural f => f

/-- `Parser::parse_expression_statement` from `parser.rs`. -/
def parse_expression_statement : Nat → ParserState → PRes Statement
  | 0, _ => .timeout
  | f + 1, p =>
    (parse_expression f Precedences.Lowest p).bind fun expression p =>
    let p := if p.next_token = Token.Semicolon then p.seek_token else p
    .ok (Statement.Expression expression) p
  termination_by structural f => f

/-- `Parser::parse_block_statement` from `parser.rs`. -/
def parse_block_statement : Nat → ParserState → PRes Statement
  | 0, _ => .timeout
  | f + 1, p => parse_block_loop f p.seek_token []
  termination_by structural f => f

/-- The `while` loop of `Parser::parse_block_statement`, terminated by `}`
or end-of-stream. -/
def parse_block_loop : Nat → ParserState → List Statement → PRes Statement
  | 0, _, _ => .timeout
  | f + 1, p, acc =>
    if p.current_token ≠ Token.Rbrace ∧ p.current_token ≠ Token.EndOfFile then
      (parse_statement f p).bind fun statement p =>
        parse_block_loop f p.seek_token (acc ++ [statement])
    else .ok (Statement.Block acc) p
  termination_by structural f => f

/-- `Parser::parse_expression` from `parser.rs`: prefix-handler dispatch on
the current token, then the precedence-climbing loop. -/
def parse_expression : Nat → Precedences → ParserState → PRes Expression
  | 0, _, _ => .timeout
  | f + 1, precedence, p =>
    let prefixRes : PRes Expression :=
      match p.current_token with
      | Token.Identifier identifier => parse_identifier p identifier
      | Token.Integer integer => parse_integer p integer
      | Token.Minus => parse_prefix_expression f PrefixOp.Minus p.seek_token
      | Token.Exclamation => parse_prefix_expression f PrefixOp.Exclamation p.seek_token
      | Token.True => parse_boolean p true
      | Token.False => parse_boolean p false
      | Token.Lparentheses => parse_grouped_expression f p
      | Token.If => parse_if_expression f p
      | Token.Function => parse_function_expression f p
      | _ => .error (ParserError.UnImplementationParser "expression handler missing")
    prefixRes.bind fun expression p => parse_expression_loop f precedence expression p
  termination_by structural f => f

/-- The climbing loop of `Parser::parse_expression`: while the next token
is not a semicolon and binds strictly tighter than `precedence`, fold it as
an infix. -/
def parse_expression_loop : Nat → Precedences → Expression → ParserState → PRes Expression
  | 0, _, _, _ => .timeout
  | f + 1, precedence, expression, p =>
    if p.next_token ≠ Token.Semicolon ∧ precedence.lt p.next_token.precedence then
      (parse_infix_expression f expression p.seek_token).bind fun expression p =>
        parse_expression_loop f precedence expression p
    else .ok expression p
  termination_by structural f => f

/-- `Parser::parse_prefix_expression` from `parser.rs` (the caller has
already advanced past the operator token). -/
def parse_prefix_expression : Nat → PrefixOp → ParserState → PRes Expression
  | 0, _, _ => .timeout
  | f + 1, operator, p =>
    (parse_expression f Precedences.PrefixLv p).bind fun expression p =>
    .ok (Expression.PrefixExpression operator expression) p
  termination_by structural f => f

/-- `Parser::parse_infix_expression` from `parser.rs`: a `(` in operator
position folds a call, every other infix-capable token folds a binary
operator whose right-hand side is parsed at that operator's own
precedence. -/
def parse_infix_expression : Nat → Expression → ParserState → PRes Expression
  | 0, _, _ => .timeout
  | f + 1, left, p =>
    if p.current_token = Token.Lparentheses then parse_call_expression f left p
    else
      match infixFromToken p.current_token with
      | some operator =>
        let precedence := p.current_token.precedence
        (parse_expression f precedence p.seek_token).bind fun right p =>
        .ok (Expression.InfixExpression left operator right) p
      | none => .error (ParserError.NotFoundInfixToken p.current_token)
  termination_by structural f => f

/-- `Parser::parse_call_expression` from `parser.rs` (note it reuses
`parse_function_parameters` for the argument list). -/
def parse_call_expression : Nat → Expression → ParserState → PRes Expression
  | 0, _, _ => .timeout
  | f + 1, function, p =>
    (parse_function_parameters f p.seek_token).bind fun args p =>
    (expect_current p Token.Rparentheses).bind fun _ p =>
    .ok (Expression.Call function args) p
  termination_by structural f => f

/-- `Parser::parse_grouped_expression` from `parser.rs`. -/
def parse_grouped_expression : Nat → ParserState → PRes Expression
  | 0, _ => .timeout
  | f + 1, p =>
    (parse_expression f Precedences.Lowest p.seek_token).bind fun expression p =>
    let p := p.seek_token
    (expect_current p Token.Rparentheses).bind fun _ p =>
    .ok expression p
  termination_by structural f => f

/-- `Parser::parse_if_expression` from `parser.rs`. -/
def parse_if_expression : Nat → ParserState → PRes Expression
  | 0, _ => .timeout
  | f + 1, p =>
    let p := p.seek_token
    (expect_current p Token.Lparentheses).bind fun _ p =>
    (parse_expression f Precedences.Lowest p.seek_token).bind fun condition p =>
    let p := p.seek_token
    (expect_current p Token.Rparentheses).bind fun _ p =>
    let p := p.seek_token
    (expect_current p Token.Lbrace).bind fun _ p =>
    (parse_block_statement f p).bind fun consequence p =>
    if p.next_token = Token.Else then
      let p := p.seek_token.seek_token
      (expect_current p Token.Lbrace).bind fun _ p =>
      (parse_block_statement f p).bind fun alternative p =>
      .ok (Expression.IfExpression condition consequence (some alternative)) p
    else
      .ok (Expression.IfExpression condition consequence none) p
  termination_by structural f => f

/-- `Parser::parse_function_expression` from `parser.rs`. -/
def parse_function_expression : Nat → ParserState → PRes Expression
  | 0, _ => .timeout
  | f + 1, p =>
    let p := p.seek_token
    (expect_current p Token.Lparentheses).bind fun _ p =>
    (parse_function_parameters f p.seek_token).bind fun parameters p =>
    (expect_current p Token.Rparentheses).bind fun _ p =>
    let p := p.seek_token
    (expect_current p Token.Lbrace).bind fun _ p =>
    (parse_block_statement f p).bind fun body p =>
    .ok (Expression.Function parameters body) p
  termination_by structural f => f

/-- `Parser::parse_function_parameters` from `parser.rs`: a comma-separated
list of full expressions (also used for call arguments). There is no
identifier check here. -/
def parse_function_parameters : Nat → ParserState → PRes (List Expression)
  | 0, _ => .timeout
  | f + 1, p =>
    if p.current_token = Token.Rparentheses then .ok [] p
    else
      (parse_expression f Precedences.Lowest p).bind fun first p =>
        parse_fn_params_loop f p.seek_token [first]
  termination_by structural f => f

/-- The comma loop of `Parser::parse_function_parameters`. -/
def parse_fn_params_loop : Nat → ParserState → List Expression → PRes (List Expression)
  | 0, _, _ => .timeout
  | f + 1, p, acc =>
    if p.current_token = Token.Comma then
      (parse_expression f Precedences.Lowest p.seek_token).bind fun parameter p =>
        parse_fn_params_loop f p.seek_token (acc ++ [parameter])
    else .ok acc p
  termination_by structural f => f

end

/-- `Parser::parse_program` from `parser.rs`. -/
def parse_program (fuel : Nat) (p : ParserState) : PRes Program :=
  parse_program_loop fuel p []

/-- Lex and parse a source string, as `main.rs` and every test harness do:
`Parser::new(Lexer::new(input)).parse_program()`. -/
def parseSource (fuel : Nat) (source : String) : PRes Program :=
  parse_program fuel (Parser.new (Lexer.new source.toList))

/-! ## `object.rs` and `environment.rs`

`Object` and `Environment` are mutually recursive: a `Function` object
holds its closure `Environment` by value, and an environment's store maps
names to objects. The `outer` link of an environment is an
`Rc<RefCell<Environment>>` in Rust, modelled as an index into a heap
(`Heap`); the store, a `HashMap<String, Object>` in Rust, is modelled as an
association list whose `insert` overwrites in place. -/

mutual
/-- `object::Object` from `object.rs`. -/
inductive Object where
  | Integer (i : Int)
  | Boolean (b : Bool)
  | Null
  | ReturnValue (o : Object)
  | Function (parameters : List Expression) (body : Statement)
      (environment : Environment)

/-- `environment::Environment` from `environment.rs`; `outer` is the heap
index standing for the `Rc<RefCell<Environment>>` link (or `none`). -/
inductive Environment where
  | mk (store : List (String × Object)) (outer : Option Nat)
end

/-- The local name→value map of an environment. -/
def Environment.store : Environment → List (String × Object)
  | .mk store _ => store

/-- The outer link of an environment. -/
def Environment.outer : Environment → Option Nat
  | .mk _ outer => outer

/-- The heap of reference-counted environment cells: index `i` models one
`Rc<RefCell<Environment>>` allocation. -/
abbrev Heap := List Environment

/-- `HashMap::get` on the store: the value bound to `name`, if any. -/
def lookupAssoc : List (String × Object) → String → Option Object
  | [], _ => none
  | (k, v) :: rest, name => if k = name then some v else lookupAssoc rest name

/-- `HashMap::insert` on the store: overwrite the binding of `name` in
place, or append it. -/
def insertAssoc : List (String × Object) → String → Object → List (String × Object)
  | [], name, value => [(name, value)]
  | (k, v) :: rest, name, value =>
    if k = name then (name, value) :: rest else (k, v) :: insertAssoc rest name value

/-- `Environment::new` from `environment.rs`. -/
def Environment.new : Environment := Environment.mk [] none

/-- `Environment::create_enclosed_environment` from `environment.rs`: an
empty scope whose outer link is the given shared cell. -/
def Environment.create_enclosed_environment (outer : Nat) : Environment :=
  Environment.mk [] (some outer)

/-- Dereference an environment cell (`Rc::borrow`). Indices produced by the
evaluator are always in bounds; the default is never reached there. -/
def heapGetEnv (heap : Heap) (i : Nat) : Environment :=
  (heap.get? i).getD Environment.new

/-- `Environment::get` from `environment.rs`: the local store first,
otherwise the outer chain, recursively; `none` when the chain ends. The
fuel bounds the chain length; since every `outer` index points to an
earlier heap cell, `heap.length` fuel always suffices at the call sites. -/
def Environment.get : Nat → Heap → Environment → String → Option Object
  | 0, _, _, _ => none
  | fuel + 1, heap, env, name =>
    match lookupAssoc env.store name with
    | some value => some value
    | none =>
      match env.outer with
      | some outer => Environment.get fuel heap (heapGetEnv heap outer) name
      | none => none

/-- `Environment::set` from `environment.rs`: insert or overwrite in the
local store only. -/
def Environment.set (env : Environment) (name : String) (value : Object) : Environment :=
  Environment.mk (insertAssoc env.store name value) env.outer

/-- `env.borrow_mut().set(name, value)` on the shared cell at index `i`. -/
def heapSet (heap : Heap) (i : Nat) (name : String) (value : Object) : Heap :=
  heap.set i ((heapGetEnv heap i).set name value)

/-- `Object::is_truthly` from `object.rs`. -/
def Object.is_truthly : Object → Bool
  | .Boolean boolean => boolean
  | .Null => false
  | _ => true

/-! ## `evaluator.rs`

Every evaluator method returns `Result<Object, Box<dyn Error>>` in Rust and
threads the shared environment cells; here the result carries the heap as
well, and two extra outcomes make the Rust control flow explicit: `panic`
for `unreachable!()` and the arithmetic faults, `timeout` for exhausted
fuel. -/

/-- `error::EvaluatorError` from `error.rs` (spelling as in the source). -/
inductive EvaluatorError where
  | TypeMissMatch (left : Object) (operator : InfixOp) (right : Object)
  | UnknowInfixOperator (left : Object) (operator : InfixOp) (right : Object)
  | UnknowPrefixOperator (operator : PrefixOp) (right : Object)
  | NotFoundIdentifier (identifier : String)

/-- The outcome of a Rust evaluator call: `Ok`, `Err`, a panic, or
exhausted fuel. -/
inductive EvalOutcome (α : Type) where
  | ok (a : α)
  | error (e : EvaluatorError)
  | panic
  | timeout

/-- The `?` operator on evaluator results. -/
def EvalOutcome.bind {α β : Type} : EvalOutcome α → (α → EvalOutcome β) → EvalOutcome β
  | .ok a, f => f a
  | .error e, _ => .error e
  | .panic, _ => .panic
  | .timeout, _ => .timeout

/-- Pair a heap-less result (from the pure operator helpers) with the
current heap. -/
def EvalOutcome.withHeap : EvalOutcome Object → Heap → EvalOutcome (Object × Heap)
  | .ok o, heap => .ok (o, heap)
  | .error e, _ => .error e
  | .panic, _ => .panic
  | .timeout, _ => .timeout

/-- Two's-complement wrap of `i32` arithmetic (release-build overflow
semantics). On in-range results it is the identity. -/
def wrap32 (n : Int) : Int := (n + 2 ^ 31) % 2 ^ 32 - 2 ^ 31

/-- `Evaluator::eval_exclamation_operator` from `evaluator.rs` (the unused
`env` parameter of the source is dropped). -/
def evalExclamationOperator : Object → EvalOutcome Object
  | .Boolean boolean => .ok (Object.Boolean (!boolean))
  | .Null => .ok (Object.Boolean true)
  | _ => .ok (Object.Boolean false)

/-- `Evaluator::eval_minus_prefix_operator` from `evaluator.rs`. -/
def evalMinusPrefixOperator : Object → EvalOutcome Object
  | .Integer integer => .ok (Object.Integer (wrap32 (-integer)))
  | object => .error (EvaluatorError.UnknowPrefixOperator PrefixOp.Minus object)

/-- `Evaluator::eval_prefix_expression` from `evaluator.rs`. -/
def evalPrefixExpression : PrefixOp → Object → EvalOutcome Object
  | .Exclamation, object => evalExclamationOperator object
  | .Minus, object => evalMinusPrefixOperator object

/-- `Evaluator::eval_integer_infix_expression` from `evaluator.rs`.
`left / right` panics in Rust when `right == 0` and on the overflowing
`i32::MIN / -1`; `Int.tdiv` is Rust's truncating division otherwise. -/
def evalIntegerInfixExpression (left : Int) (operator : InfixOp) (right : Int) :
    EvalOutcome Object :=
  match operator with
  | .Plus => .ok (Object.Integer (wrap32 (left + right)))
  | .Minus => .ok (Object.Integer (wrap32 (left - right)))
  | .Asterisk => .ok (Object.Integer (wrap32 (left * right)))
  | .Slash =>
    if right = 0 ∨ (left = -(2 ^ 31) ∧ right = -1) then .panic
    else .ok (Object.Integer (left.tdiv right))
  | .LessThan => .ok (Object.Boolean (decide (left < right)))
  | .GreaterThan => .ok (Object.Boolean (decide (right < left)))
  | .Equal => .ok (Object.Boolean (decide (left = right)))
  | .NotEqual => .ok (Object.Boolean (decide (left ≠ right)))

/-- `Evaluator::eval_boolean_infix_expression` from `evaluator.rs`. -/
def evalBooleanInfixExpression (left : Bool) (operator : InfixOp) (right : Bool) :
    EvalOutcome Object :=
  match operator with
  | .Equal => .ok (Object.Boolean (left == right))
  | .NotEqual => .ok (Object.Boolean (left != right))
  | _ =>
    .error (EvaluatorError.UnknowInfixOperator (Object.Boolean left) operator
      (Object.Boolean right))

/-- `Evaluator::eval_infix_expression` from `evaluator.rs`. -/
def evalInfixExpression (left : Object) (operator : InfixOp) (right : Object) :
    EvalOutcome Object :=
  match left, right with
  | .Integer left_int, .Integer right_int =>
    evalIntegerInfixExpression left_int operator right_int
  | .Boolean left_bool, .Boolean right_bool =>
    evalBooleanInfixExpression left_bool operator right_bool
  | _, _ => .error (EvaluatorError.TypeMissMatch left operator right)

/-- The parameter-binding loop of `Evaluator::apply_function`:
`parameters.iter().zip(args.iter())` binds positionally into the cell at
index `new_env` and hits `unreachable!()` on a non-identifier parameter. -/
def bindParams : List Expression → List Object → Heap → Nat → EvalOutcome Heap
  | [], _, heap, _ => .ok heap
  | _ :: _, [], heap, _ => .ok heap
  | parameter :: ps, arg :: args, heap, new_env =>
    match parameter with
    | .Identifier identifier =>
      bindParams ps args (heapSet heap new_env identifier arg) new_env
    | _ => .panic

mutual

/-- `Evaluator::eval_statements` from `evaluator.rs`: statements in order;
a `ReturnValue` stops the loop and is unwrapped at the program root or
re-wrapped in a nested block; otherwise the last statement's value (or
`Null` for an empty list) is the result. -/
def evalStatements : Nat → List Statement → Bool → Heap → Nat → EvalOutcome (Object × Heap)
  | 0, _, _, _, _ => .timeout
  | _ + 1, [], _, heap, _ => .ok (Object.Null, heap)
  | f + 1, statement :: rest, is_root, heap, env =>
    (evalStatement f statement heap env).bind fun (object, heap) =>
      match object with
      | .ReturnValue value =>
        .ok ((if is_root then value else Object.ReturnValue value), heap)
      | _ =>
        match rest with
        | [] => .ok (object, heap)
        | _ :: _ => evalStatements f rest is_root heap env
  termination_by structural f => f

/-- `Evaluator::eval_statement` from `evaluator.rs`; the `Let` arm hits
`unreachable!()` when the bound pattern is not an identifier. -/
def evalStatement : Nat → Statement → Heap → Nat → EvalOutcome (Object × Heap)
  | 0, _, _, _ => .timeout
  | f + 1, statement, heap, env =>
    match statement with
    | .Let identifier value =>
      match identifier with
      | .Identifier ident =>
        (evalExpression f value heap env).bind fun (value, heap) =>
          .ok (Object.Null, heapSet heap env ident value)
      | _ => .panic
    | .Return expression =>
      (evalExpression f expression heap env).bind fun (ret_val, heap) =>
        .ok (Object.ReturnValue ret_val, heap)
    | .Expression expression => evalExpression f expression heap env
    | .Block statements => evalStatements f statements false heap env
  termination_by structural f => f

/-- `Evaluator::eval_expression` from `evaluator.rs`. A function literal
builds `create_enclosed_environment(env.clone())`: a fresh empty scope
whose outer link is the current cell, held by value in the object. The
unmatched `Illegal` arm falls into the source's `_ => Ok(Null)`. -/
def evalExpression : Nat → Expression → Heap → Nat → EvalOutcome (Object × Heap)
  | 0, _, _, _ => .timeout
  | f + 1, expression, heap, env =>
    match expression with
    | .Identifier identifier =>
      match Environment.get heap.length heap (heapGetEnv heap env) identifier with
      | some object => .ok (object, heap)
      | none => .error (EvaluatorError.NotFoundIdentifier identifier)
    | .Integer integer => .ok (Object.Integer integer, heap)
    | .Boolean boolean => .ok (Object.Boolean boolean, heap)
    | .PrefixExpression operator expression =>
      (evalExpression f expression heap env).bind fun (object, heap) =>
        (evalPrefixExpression operator object).withHeap heap
    | .InfixExpression left operator right =>
      (evalExpression f left heap env).bind fun (left, heap) =>
      (evalExpression f right heap env).bind fun (right, heap) =>
        (evalInfixExpression left operator right).withHeap heap
    | .IfExpression condition consequence alternative =>
      (evalExpression f condition heap env).bind fun (condition, heap) =>
        evalIfExpression f condition consequence alternative heap env
    | .Function parameters body =>
      .ok (Object.Function parameters body
        (Environment.create_enclosed_environment env), heap)
    | .Call function args =>
      (evalExpression f function heap env).bind fun (function, heap) =>
      (evalExpressions f args heap env).bind fun (args, heap) =>
        applyFunction f function args heap
    | .Illegal => .ok (Object.Null, heap)
  termination_by structural f => f

/-- `Evaluator::eval_expressions` from `evaluator.rs`: the arguments, left
to right, in the caller's environment. -/
def evalExpressions : Nat → List Expression → Heap → Nat → EvalOutcome (List Object × Heap)
  | 0, _, _, _ => .timeout
  | _ + 1, [], heap, _ => .ok ([], heap)
  | f + 1, expression :: rest, heap, env =>
    (evalExpression f expression heap env).bind fun (evaluated, heap) =>
    (evalExpressions f rest heap env).bind fun (result, heap) =>
      .ok (evaluated :: result, heap)
  termination_by structural f => f

/-- `Evaluator::eval_if_expression` from `evaluator.rs`. -/
def evalIfExpression : Nat → Object → Statement → Option Statement → Heap → Nat →
    EvalOutcome (Object × Heap)
  | 0, _, _, _, _, _ => .timeout
  | f + 1, condition, consequence, alternative, heap, env =>
    if condition.is_truthly then evalStatement f consequence heap env
    else
      match alternative with
      | some alternative => evalStatement f alternative heap env
      | none => .ok (Object.Null, heap)
  termination_by structural f => f

/-- `Evaluator::apply_function` from `evaluator.rs`: allocate the closure
environment held in the object as a fresh shared cell
(`Rc::new(RefCell::new(environment))`), enclose a new scope in it, bind
the parameters positionally, evaluate the body there, and unwrap one
`ReturnValue`. Calling a non-function hits `unreachable!()`. -/
def applyFunction : Nat → Object → List Object → Heap → EvalOutcome (Object × Heap)
  | 0, _, _, _ => .timeout
  | f + 1, object, args, heap =>
    match object with
    | .Function parameters body environment =>
      let environment_cell := heap.length
      let heap := heap ++ [environment]
      let new_env := heap.length
      let heap := heap ++ [Environment.create_enclosed_environment environment_cell]
      (bindParams parameters args heap new_env).bind fun heap =>
      (evalStatement f body heap new_env).bind fun (evaluated, heap) =>
        match evaluated with
        | .ReturnValue object => .ok (object, heap)
        | _ => .ok (evaluated, heap)
    | _ => .panic
  termination_by structural f => f

end

/-- `Evaluator::eval` from `evaluator.rs`. -/
def Evaluator.eval (fuel : Nat) (root : Program) (heap : Heap) (env : Nat) :
    EvalOutcome (Object × Heap) :=
  evalStatements fuel root.statements true heap env

/-- The starting heap of `main.rs`: one top-level `Environment::new()`
cell, referenced by index `0`. -/
def initialHeap : Heap := [Environment.new]

/-- Parse and evaluate a source string from a fresh top-level environment,
keeping only the resulting object (the harness every test in
`evaluator.rs` uses). `none` means the parse failed or the fuel ran out. -/
def runResult (fuel : Nat) (source : String) : Option (EvalOutcome Object) :=
  match parseSource fuel source with
  | .ok prog _ =>
    match Evaluator.eval fuel prog initialHeap 0 with
    | .ok (object, _) => some (.ok object)
    | .error e => some (.error e)
    | .panic => some .panic
    | .timeout => none
  | _ => none

/-- Parse and evaluate a source string and read the binding of `name` in
the top-level environment afterwards. -/
def runTopBinding (fuel : Nat) (source : String) (name : String) : Option Object :=
  match parseSource fuel source with
  | .ok prog _ =>
    match Evaluator.eval fuel prog initialHeap 0 with
    | .ok (_, heap) => lookupAssoc (heapGetEnv heap 0).store name
    | _ => none
  | _ => none

/-- Parse and evaluate a source string and count the environment cells
ever allocated. -/
def runHeapLength (fuel : Nat) (source : String) : Option Nat :=
  match parseSource fuel source with
  | .ok prog _ =>
    match Evaluator.eval fuel prog initialHeap 0 with
    | .ok (_, heap) => some heap.length
    | _ => none
  | _ => none

/-- Parse a source string and keep the statement list (dropping the final
parser state), for statements-shaped observations. -/
def parsedStatements (fuel : Nat) (source : String) : Option (List Statement) :=
  match parseSource fuel source with
  | .ok prog _ => some prog.statements
  | _ => none

/-- Parse a one-statement source string and render the statement back with
`Statement::to_code` (the mechanism `parser.rs`'s own precedence tests
use). -/
def parseFirstStatementCode (fuel : Nat) (source : String) : Option String :=
  match parseSource fuel source with
  | .ok prog _ =>
    match prog.statements with
    | [statement] => some statement.to_code
    | _ => none
  | _ => none

/-! ## Store and heap lemmas -/

/-- After `insert`, looking the inserted name up in the store finds the new
value, whether the binding was fresh or overwritten. -/
theorem lookupAssoc_insertAssoc_self (st : List (String × Object)) (name : String)
    (value : Object) :
    lookupAssoc (insertAssoc st name value) name = some value := by
  induction st with
  | nil => simp [insertAssoc, lookupAssoc]
  | cons kv rest ih =>
    obtain ⟨k, v⟩ := kv
    by_cases hk : k = name
    · simp [insertAssoc, lookupAssoc, hk]
    · simp [insertAssoc, lookupAssoc, hk, ih]

/-- `insert` leaves the binding of every other name in the store alone. -/
theorem lookupAssoc_insertAssoc_ne (st : List (String × Object)) (name other : String)
    (value : Object) (h : other ≠ name) :
    lookupAssoc (insertAssoc st name value) other = lookupAssoc st other := by
  induction st with
  | nil => simp [insertAssoc, lookupAssoc, Ne.symm h]
  | cons kv rest ih =>
    obtain ⟨k, v⟩ := kv
    by_cases hk : k = name
    · simp [insertAssoc, lookupAssoc, hk, Ne.symm h]
    · simp [insertAssoc, lookupAssoc, hk, ih]

/-- The parameter-binding zip ignores arguments beyond the parameter list
(Rust's `zip` stops at the shorter iterator). -/
theorem bindParams_extra_args (ps : List Expression) (args : List Object) (heap : Heap)
    (k : Nat) :
    bindParams ps args heap k = bindParams ps (args.take ps.length) heap k := by
  induction ps generalizing args heap with
  | nil => cases args <;> rfl
  | cons p ps ih =>
    cases args with
    | nil => rfl
    | cons a args =>
      cases p <;> simp only [bindParams, List.length_cons, List.take_succ_cons]
      exact ih args _

/-- The parameter-binding zip binds nothing for parameters beyond the
argument list (missing arguments leave the parameter unbound). -/
theorem bindParams_missing_args (ps : List Expression) (args : List Object) (heap : Heap)
    (k : Nat) :
    bindParams ps args heap k = bindParams (ps.take args.length) args heap k := by
  induction ps generalizing args heap with
  | nil => cases args <;> rfl
  | cons p ps ih =>
    cases args with
    | nil => rfl
    | cons a args =>
      cases p <;> simp only [bindParams, List.length_cons, List.take_succ_cons]
      exact ih args _

/-! ## The claims -/

/-- C1: for every pair of infix operators, the parsed expression
`a op1 b op2 c` nests to the right exactly when `op2`'s table precedence
is strictly greater than `op1`'s and to the left otherwise — so every
chain of equal-precedence operators nests left-associatively — and for
every infix operator, prefix `-` binds tighter than it
(`-a op b` renders `((-a) op b)`). The precedence order
Lowest < Equals < LessGreater < Sum < Product < Prefix < Call and the
rows of `Token::precedence` are listed explicitly, and in particular
`"a + b * c"` parses and renders to `"(a + (b * c));"`,
`"a + b - c"` to `"((a + b) - c);"` and `"-a * b"` to `"((-a) * b);"`. -/
theorem claim_C1 :
    (∀ (op1 op2 : InfixOp),
        parseFirstStatementCode 99
            ("a " ++ op1.to_code ++ " b " ++ op2.to_code ++ " c")
          = some (if (InfixOp.token op1).precedence.lt (InfixOp.token op2).precedence
              then "(a " ++ op1.to_code ++ " (b " ++ op2.to_code ++ " c));"
              else "((a " ++ op1.to_code ++ " b) " ++ op2.to_code ++ " c);"))
  ∧ (∀ (op : InfixOp),
        parseFirstStatementCode 99 ("-a " ++ op.to_code ++ " b")
          = some ("((-a) " ++ op.to_code ++ " b);"))
  ∧ (Precedences.Lowest.lt Precedences.Equals
      ∧ Precedences.Equals.lt Precedences.LessGreater
      ∧ Precedences.LessGreater.lt Precedences.Sum
      ∧ Precedences.Sum.lt Precedences.Product
      ∧ Precedences.Product.lt Precedences.PrefixLv
      ∧ Precedences.PrefixLv.lt Precedences.Call)
  ∧ (Token.Equal.precedence = Precedences.Equals
      ∧ Token.NotEqual.precedence = Precedences.Equals
      ∧ Token.LessThan.precedence = Precedences.LessGreater
      ∧ Token.GreaterThan.precedence = Precedences.LessGreater
      ∧ Token.Plus.precedence = Precedences.Sum
      ∧ Token.Minus.precedence = Precedences.Sum
      ∧ Token.Asterisk.precedence = Precedences.Product
      ∧ Token.Slash.precedence = Precedences.Product
      ∧ Token.Lparentheses.precedence = Precedences.Call)
  ∧ parseFirstStatementCode 99 "a + b * c" = some "(a + (b * c));"
  ∧ parseFirstStatementCode 99 "a + b - c" = some "((a + b) - c);"
  ∧ parseFirstStatementCode 99 "-a * b" = some "((-a) * b);" := by
  refine ⟨?_, ?_, ⟨by decide, by decide, by decide, by decide, by decide, by decide⟩,
    ⟨rfl, rfl, rfl, rfl, rfl, rfl, rfl, rfl, rfl⟩, rfl, rfl, rfl⟩
  · intro op1 op2
    cases op1 <;> cases op2 <;> rfl
  · intro op
    cases op <;> rfl

/-- C2: statements evaluate in order; the first `ReturnValue` stops the
iteration, is unwrapped at the program root and re-wrapped (propagated
unchanged) in a nested block; and the program
`"if (true) { if (true) { return 10; } 0; }"` evaluates to `Integer 10`. -/
theorem claim_C2 :
    (∀ (f : Nat) (st : Statement) (rest : List Statement) (heap : Heap) (env : Nat)
        (v : Object) (heap1 : Heap),
        evalStatement f st heap env = .ok (Object.ReturnValue v, heap1) →
        evalStatements (f + 1) (st :: rest) true heap env = .ok (v, heap1)
          ∧ evalStatements (f + 1) (st :: rest) false heap env
              = .ok (Object.ReturnValue v, heap1))
  ∧ (∀ (f : Nat) (st : Statement) (rest : List Statement) (is_root : Bool) (heap : Heap)
        (env : Nat) (obj : Object) (heap1 : Heap),
        evalStatement f st heap env = .ok (obj, heap1) →
        (∀ w, obj ≠ Object.ReturnValue w) → rest ≠ [] →
        evalStatements (f + 1) (st :: rest) is_root heap env
          = evalStatements f rest is_root heap1 env)
  ∧ runResult 999 "if (true) \x7b if (true) \x7b return 10; \x7d 0; \x7d"
      = some (.ok (Object.Integer 10)) := by
  refine ⟨?_, ?_, rfl⟩
  · intro f st rest heap env v heap1 h
    constructor <;> simp [evalStatements, h, EvalOutcome.bind]
  · intro f st rest is_root heap env obj heap1 h hnr hrest
    simp only [evalStatements, h, EvalOutcome.bind]
    cases obj with
    | ReturnValue w => exact absurd rfl (hnr w)
    | _ =>
      cases rest with
      | nil => exact absurd rfl hrest
      | cons r rs => rfl

/-- Witness for C2 at a concrete input: a `Return` statement followed by a
further statement stops the iteration, unwrapped at the root and
re-wrapped in a nested block. -/
theorem claim_C2_witness :
    evalStatements 6 [Statement.Return (Expression.Integer 1),
        Statement.Expression (Expression.Integer 2)] true initialHeap 0
      = .ok (Object.Integer 1, initialHeap)
  ∧ evalStatements 6 [Statement.Return (Expression.Integer 1),
        Statement.Expression (Expression.Integer 2)] false initialHeap 0
      = .ok (Object.ReturnValue (Object.Integer 1), initialHeap) :=
  claim_C2.1 5 (Statement.Return (Expression.Integer 1))
    [Statement.Expression (Expression.Integer 2)] initialHeap 0 (Object.Integer 1)
    initialHeap rfl

/-- C3, counterexample to the claim as stated: the lexer's `is_letter`
accepts only letters and underscores, so in `"let add5 = addN(5); ..."`
the name `add5` lexes as the identifier `add` followed by the integer `5`,
and the spec's closure program fails to parse with
`UnexpectedToken{actual: Integer(5), expected: Assign}` — it does not
evaluate to `Integer 15`. -/
theorem claim_C3_counterexample :
    parseSource 999
        "let addN = fn(n) \x7b fn(x) \x7b x + n \x7d \x7d; let add5 = addN(5); add5(10);"
      = .error (ParserError.UnexpectedToken (Token.Integer 5) Token.Assign)
  ∧ runResult 999
        "let addN = fn(n) \x7b fn(x) \x7b x + n \x7d \x7d; let add5 = addN(5); add5(10);"
      = none :=
  ⟨rfl, rfl⟩

/-- C3, amended: evaluating a function literal yields a `Function` object
whose closure environment is a fresh empty scope holding the current
environment cell by shared reference (not a copy of its bindings), so
bindings added to or overwritten in the defining environment after the
literal is evaluated are visible when the function is applied; the spec's
closure program evaluates to `Integer 15` once its identifiers avoid
digits (which the lexer does not accept in identifiers), e.g. with
`addFive` for `add5`. -/
theorem claim_C3 :
    (∀ (f : Nat) (parameters : List Expression) (body : Statement) (heap : Heap) (env : Nat),
        evalExpression (f + 1) (Expression.Function parameters body) heap env
          = .ok (Object.Function parameters body
              (Environment.create_enclosed_environment env), heap))
  ∧ (∀ (f : Nat) (heap : Heap) (i : Nat) (name : String) (value : Object),
        i < heap.length →
        Environment.get (f + 2) (heapSet heap i name value)
          (Environment.create_enclosed_environment i) name = some value)
  ∧ runResult 999
        "let addN = fn(n) \x7b fn(x) \x7b x + n \x7d \x7d; let addFive = addN(5); addFive(10);"
      = some (.ok (Object.Integer 15))
  ∧ runResult 999 "let f = fn() \x7b a; \x7d; let a = 5; f();"
      = some (.ok (Object.Integer 5))
  ∧ runResult 999 "let a = 1; let f = fn() \x7b a; \x7d; let a = 2; f();"
      = some (.ok (Object.Integer 2)) := by
  refine ⟨fun f parameters body heap env => rfl, ?_, rfl, rfl, rfl⟩
  intro f heap i name value h
  have hcell : (heapSet heap i name value)[i]?
      = some ((heapGetEnv heap i).set name value) := by
    unfold heapSet
    exact List.getElem?_set_eq_of_lt _ h
  simp [Environment.get, Environment.create_enclosed_environment, Environment.store,
    Environment.outer, lookupAssoc, heapGetEnv, hcell, Environment.set,
    lookupAssoc_insertAssoc_self]

/-- Witness for C3 at concrete inputs: a literal evaluated in the
top-level cell captures it by index, and a binding written to cell `0`
after the capture is found through the closure's outer link. -/
theorem claim_C3_witness :
    evalExpression 1 (Expression.Function [] (Statement.Block [])) initialHeap 0
      = .ok (Object.Function [] (Statement.Block [])
          (Environment.create_enclosed_environment 0), initialHeap)
  ∧ Environment.get 2 (heapSet initialHeap 0 "a" (Object.Integer 1))
      (Environment.create_enclosed_environment 0) "a" = some (Object.Integer 1) :=
  ⟨claim_C3.1 0 [] (Statement.Block []) initialHeap 0,
    claim_C3.2.1 0 initialHeap 0 "a" (Object.Integer 1) (by decide)⟩

/-- C4: applying a `Function` object evaluates each argument in the
caller's environment left to right (`eval_expressions`, whose order shows
in which unbound identifier is reported first), allocates the closure
environment as a fresh shared cell with a new scope enclosing it, binds
parameters to arguments positionally — extra arguments silently ignored,
missing arguments left unbound so a later lookup of that parameter fails —
evaluates the body as a block in the new scope, and unwraps one
`ReturnValue` (otherwise the body's value is returned directly). -/
theorem claim_C4 :
    (∀ (f : Nat) (e : Expression) (rest : List Expression) (heap : Heap) (env : Nat),
        evalExpressions (f + 1) (e :: rest) heap env
          = (evalExpression f e heap env).bind fun (evaluated, heap) =>
            (evalExpressions f rest heap env).bind fun (result, heap) =>
              .ok (evaluated :: result, heap))
  ∧ (∀ (f : Nat) (parameters : List Expression) (body : Statement)
        (environment : Environment) (args : List Object) (heap : Heap),
        applyFunction (f + 1) (Object.Function parameters body environment) args heap
          = (bindParams parameters args
                (heap ++ [environment, Environment.create_enclosed_environment heap.length])
                (heap.length + 1)).bind fun heap2 =>
              (evalStatement f body heap2 (heap.length + 1)).bind fun (evaluated, heap3) =>
                match evaluated with
                | .ReturnValue object => .ok (object, heap3)
                | _ => .ok (evaluated, heap3))
  ∧ (∀ (ps : List Expression) (args : List Object) (heap : Heap) (k : Nat),
        bindParams ps args heap k = bindParams ps (args.take ps.length) heap k)
  ∧ (∀ (ps : List Expression) (args : List Object) (heap : Heap) (k : Nat),
        bindParams ps args heap k = bindParams (ps.take args.length) args heap k)
  ∧ runResult 999 "let f = fn(x) \x7b x \x7d; f(1, 2);" = some (.ok (Object.Integer 1))
  ∧ runResult 999 "let f = fn(x, y) \x7b y \x7d; f(1);"
      = some (.error (EvaluatorError.NotFoundIdentifier "y"))
  ∧ runResult 999 "let f = fn(a, b) \x7b 0 \x7d; f(u, v);"
      = some (.error (EvaluatorError.NotFoundIdentifier "u"))
  ∧ runResult 999 "let x = 1; let f = fn(y) \x7b y \x7d; f(x + 1);"
      = some (.ok (Object.Integer 2))
  ∧ runResult 999 "let f = fn() \x7b return 7; 8; \x7d; f();" = some (.ok (Object.Integer 7))
  ∧ runResult 999 "let f = fn() \x7b 7; 8; \x7d; f();" = some (.ok (Object.Integer 8)) := by
  refine ⟨fun f e rest heap env => rfl, ?_, bindParams_extra_args, bindParams_missing_args,
    rfl, rfl, rfl, rfl, rfl, rfl⟩
  intro f parameters body environment args heap
  simp [applyFunction, List.length_append, List.append_assoc]

/-- C5, counterexample to the claim as stated: with both operands
`Integer`, the operator `/` does not always yield an `Integer` — division
by zero panics (Rust's `i32` division), so `Integer 1 / Integer 0`
produces no `Integer` at all. -/
theorem claim_C5_counterexample :
    evalInfixExpression (Object.Integer 1) InfixOp.Slash (Object.Integer 0) = .panic
  ∧ ∀ (n : Int),
      evalInfixExpression (Object.Integer 1) InfixOp.Slash (Object.Integer 0)
        ≠ .ok (Object.Integer n) := by
  refine ⟨rfl, ?_⟩
  intro n h
  simp [evalInfixExpression, evalIntegerInfixExpression] at h

/-- C5, amended: with both operands `Integer`, the operators `+ - *` yield
an `Integer` (with 32-bit wrap-around), `/` yields an `Integer` unless the
divisor is `0` or the division overflows (`i32::MIN / -1`), in which case
the evaluation panics, and `< > == !=` yield a `Boolean`; with both
operands `Boolean`, only `==` and `!=` are legal and every other operator
reports `UnknownInfixOperator{left, operator, right}`; mixed
`Integer`/`Boolean` operands report `TypeMismatch{left, operator, right}`;
and `"5 + true;"` fails with `TypeMismatch` carrying `left = Integer 5`,
`operator = Plus`, `right = Boolean true`. -/
theorem claim_C5 :
    (∀ (l r : Int), ∃ n,
        evalInfixExpression (Object.Integer l) InfixOp.Plus (Object.Integer r)
          = .ok (Object.Integer n))
  ∧ (∀ (l r : Int), ∃ n,
        evalInfixExpression (Object.Integer l) InfixOp.Minus (Object.Integer r)
          = .ok (Object.Integer n))
  ∧ (∀ (l r : Int), ∃ n,
        evalInfixExpression (Object.Integer l) InfixOp.Asterisk (Object.Integer r)
          = .ok (Object.Integer n))
  ∧ (∀ (l r : Int), ¬(r = 0 ∨ (l = -(2 ^ 31) ∧ r = -1)) → ∃ n,
        evalInfixExpression (Object.Integer l) InfixOp.Slash (Object.Integer r)
          = .ok (Object.Integer n))
  ∧ (∀ (l r : Int), (r = 0 ∨ (l = -(2 ^ 31) ∧ r = -1)) →
        evalInfixExpression (Object.Integer l) InfixOp.Slash (Object.Integer r) = .panic)
  ∧ (∀ (l r : Int), ∃ b,
        evalInfixExpression (Object.Integer l) InfixOp.LessThan (Object.Integer r)
          = .ok (Object.Boolean b))
  ∧ (∀ (l r : Int), ∃ b,
        evalInfixExpression (Object.Integer l) InfixOp.GreaterThan (Object.Integer r)
          = .ok (Object.Boolean b))
  ∧ (∀ (l r : Int), ∃ b,
        evalInfixExpression (Object.Integer l) InfixOp.Equal (Object.Integer r)
          = .ok (Object.Boolean b))
  ∧ (∀ (l r : Int), ∃ b,
        evalInfixExpression (Object.Integer l) InfixOp.NotEqual (Object.Integer r)
          = .ok (Object.Boolean b))
  ∧ (∀ (a b : Bool),
        evalInfixExpression (Object.Boolean a) InfixOp.Equal (Object.Boolean b)
          = .ok (Object.Boolean (a == b)))
  ∧ (∀ (a b : Bool),
        evalInfixExpression (Object.Boolean a) InfixOp.NotEqual (Object.Boolean b)
          = .ok (Object.Boolean (a != b)))
  ∧ (∀ (a b : Bool) (op : InfixOp), op ≠ InfixOp.Equal → op ≠ InfixOp.NotEqual →
        evalInfixExpression (Object.Boolean a) op (Object.Boolean b)
          = .error (EvaluatorError.UnknowInfixOperator (Object.Boolean a) op
              (Object.Boolean b)))
  ∧ (∀ (l : Int) (b : Bool) (op : InfixOp),
        evalInfixExpression (Object.Integer l) op (Object.Boolean b)
          = .error (EvaluatorError.TypeMissMatch (Object.Integer l) op (Object.Boolean b)))
  ∧ (∀ (b : Bool) (r : Int) (op : InfixOp),
        evalInfixExpression (Object.Boolean b) op (Object.Integer r)
          = .error (EvaluatorError.TypeMissMatch (Object.Boolean b) op (Object.Integer r)))
  ∧ runResult 999 "5 + true;"
      = some (.error (EvaluatorError.TypeMissMatch (Object.Integer 5) InfixOp.Plus
          (Object.Boolean true))) := by
  refine ⟨fun l r => ⟨_, rfl⟩, fun l r => ⟨_, rfl⟩, fun l r => ⟨_, rfl⟩, ?_, ?_,
    fun l r => ⟨_, rfl⟩, fun l r => ⟨_, rfl⟩, fun l r => ⟨_, rfl⟩, fun l r => ⟨_, rfl⟩,
    fun a b => rfl, fun a b => rfl, ?_, fun l b op => rfl, fun b r op => rfl, rfl⟩
  · intro l r h
    refine ⟨l.tdiv r, ?_⟩
    show (if r = 0 ∨ (l = -(2 ^ 31) ∧ r = -1) then EvalOutcome.panic
        else .ok (Object.Integer (l.tdiv r))) = _
    rw [if_neg h]
  · intro l r h
    show (if r = 0 ∨ (l = -(2 ^ 31) ∧ r = -1) then EvalOutcome.panic
        else .ok (Object.Integer (l.tdiv r))) = _
    rw [if_pos h]
  · intro a b op h1 h2
    cases op <;> first
      | rfl
      | exact absurd rfl h1
      | exact absurd rfl h2

/-- Witness for C5 at concrete inputs: `6 / 2` yields an `Integer`,
`1 / 0` panics, and `true * false` reports the unknown-operator error. -/
theorem claim_C5_witness :
    (∃ n, evalInfixExpression (Object.Integer 6) InfixOp.Slash (Object.Integer 2)
        = .ok (Object.Integer n))
  ∧ evalInfixExpression (Object.Integer 3) InfixOp.Slash (Object.Integer 0) = .panic
  ∧ evalInfixExpression (Object.Boolean true) InfixOp.Asterisk (Object.Boolean false)
      = .error (EvaluatorError.UnknowInfixOperator (Object.Boolean true) InfixOp.Asterisk
          (Object.Boolean false)) := by
  obtain ⟨-, -, -, h4, h5, -, -, -, -, -, -, h12, -⟩ := claim_C5
  exact ⟨h4 6 2 (by decide), h5 3 0 (Or.inl rfl),
    h12 true false InfixOp.Asterisk (by decide) (by decide)⟩

/-- C6: `Environment::get` returns the locally bound value when present,
otherwise delegates to the outer chain and reports a miss (`none`) when
the chain ends; `Environment::set` inserts or overwrites only in the
local scope's map — the outer link is untouched and every other
environment cell in the heap keeps all its bindings. -/
theorem claim_C6 :
    (∀ (f : Nat) (heap : Heap) (st : List (String × Object)) (outer : Option Nat)
        (name : String) (value : Object),
        lookupAssoc st name = some value →
        Environment.get (f + 1) heap (Environment.mk st outer) name = some value)
  ∧ (∀ (f : Nat) (heap : Heap) (st : List (String × Object)) (i : Nat) (name : String),
        lookupAssoc st name = none →
        Environment.get (f + 1) heap (Environment.mk st (some i)) name
          = Environment.get f heap (heapGetEnv heap i) name)
  ∧ (∀ (f : Nat) (heap : Heap) (st : List (String × Object)) (name : String),
        lookupAssoc st name = none →
        Environment.get (f + 1) heap (Environment.mk st none) name = none)
  ∧ (∀ (st : List (String × Object)) (name : String) (value : Object),
        lookupAssoc (insertAssoc st name value) name = some value)
  ∧ (∀ (st : List (String × Object)) (name other : String) (value : Object),
        other ≠ name →
        lookupAssoc (insertAssoc st name value) other = lookupAssoc st other)
  ∧ (∀ (env : Environment) (name : String) (value : Object),
        (env.set name value).outer = env.outer)
  ∧ (∀ (heap : Heap) (i j : Nat) (name : String) (value : Object), j ≠ i →
        (heapSet heap i name value)[j]? = heap[j]?) := by
  refine ⟨?_, ?_, ?_, lookupAssoc_insertAssoc_self, lookupAssoc_insertAssoc_ne, ?_, ?_⟩
  · intro f heap st outer name value h
    simp [Environment.get, Environment.store, h]
  · intro f heap st i name h
    simp [Environment.get, Environment.store, Environment.outer, h]
  · intro f heap st name h
    simp [Environment.get, Environment.store, Environment.outer, h]
  · intro env name value
    cases env
    rfl
  · intro heap i j name value h
    unfold heapSet
    exact List.getElem?_set_ne (fun hx => h hx.symm)

/-- Witness for C6 at concrete inputs: a local hit, a delegated miss, an
end-of-chain miss, the insert/overwrite behaviour, and a `set` into cell
`0` leaving cell `1` untouched. -/
theorem claim_C6_witness :
    Environment.get 1 [] (Environment.mk [("x", Object.Integer 3)] none) "x"
      = some (Object.Integer 3)
  ∧ Environment.get 2 [Environment.mk [("y", Object.Integer 4)] none]
      (Environment.mk [] (some 0)) "y"
      = Environment.get 1 [Environment.mk [("y", Object.Integer 4)] none]
          (heapGetEnv [Environment.mk [("y", Object.Integer 4)] none] 0) "y"
  ∧ Environment.get 1 [] (Environment.mk [] none) "z" = none
  ∧ lookupAssoc (insertAssoc [("x", Object.Integer 3)] "x" (Object.Integer 9)) "x"
      = some (Object.Integer 9)
  ∧ lookupAssoc (insertAssoc [("x", Object.Integer 3)] "x" (Object.Integer 9)) "w"
      = lookupAssoc [("x", Object.Integer 3)] "w"
  ∧ ((Environment.mk [] (some 7)).set "x" (Object.Integer 1)).outer = some 7
  ∧ (heapSet [Environment.new, Environment.new] 0 "x" (Object.Integer 1))[1]?
      = some Environment.new := by
  obtain ⟨h1, h2, h3, h4, h5, h6, h7⟩ := claim_C6
  exact ⟨h1 0 [] [("x", Object.Integer 3)] none "x" (Object.Integer 3) rfl,
    h2 1 [Environment.mk [("y", Object.Integer 4)] none] [] 0 "y" rfl,
    h3 0 [] [] "z" rfl,
    h4 [("x", Object.Integer 3)] "x" (Object.Integer 9),
    h5 [("x", Object.Integer 3)] "x" "w" (Object.Integer 9) (by decide),
    h6 (Environment.mk [] (some 7)) "x" (Object.Integer 1),
    h7 [Environment.new, Environment.new] 0 1 "x" (Object.Integer 1) (by decide)⟩

/-- C7: prefix `!` maps `Boolean b` to `Boolean (not b)`, `Null` to
`Boolean true`, and every other object (`Integer`, `ReturnValue`,
`Function`) to `Boolean false`; an if-expression treats `Boolean false`
and `Null` as falsy and everything else as truthy, evaluating the
consequence when truthy, the alternative when present otherwise, and
yielding `Null` when the condition is falsy and no alternative exists;
`"if (5) {1} else {2}"` evaluates to `Integer 1` and
`"if (!5) {1} else {2}"` to `Integer 2`. -/
theorem claim_C7 :
    (∀ (b : Bool), evalExclamationOperator (Object.Boolean b) = .ok (Object.Boolean (!b)))
  ∧ evalExclamationOperator Object.Null = .ok (Object.Boolean true)
  ∧ (∀ (n : Int), evalExclamationOperator (Object.Integer n) = .ok (Object.Boolean false))
  ∧ (∀ (o : Object), evalExclamationOperator (Object.ReturnValue o)
      = .ok (Object.Boolean false))
  ∧ (∀ (ps : List Expression) (bd : Statement) (e : Environment),
        evalExclamationOperator (Object.Function ps bd e) = .ok (Object.Boolean false))
  ∧ (Object.Boolean false).is_truthly = false
  ∧ Object.Null.is_truthly = false
  ∧ (Object.Boolean true).is_truthly = true
  ∧ (∀ (n : Int), (Object.Integer n).is_truthly = true)
  ∧ (∀ (o : Object), (Object.ReturnValue o).is_truthly = true)
  ∧ (∀ (ps : List Expression) (bd : Statement) (e : Environment),
        (Object.Function ps bd e).is_truthly = true)
  ∧ (∀ (f : Nat) (n : Int) (cons : Statement) (alt : Option Statement) (heap : Heap)
        (env : Nat),
        evalIfExpression (f + 1) (Object.Integer n) cons alt heap env
          = evalStatement f cons heap env)
  ∧ (∀ (f : Nat) (cons : Statement) (alt : Option Statement) (heap : Heap) (env : Nat),
        evalIfExpression (f + 1) (Object.Boolean true) cons alt heap env
          = evalStatement f cons heap env)
  ∧ (∀ (f : Nat) (cons alt : Statement) (heap : Heap) (env : Nat),
        evalIfExpression (f + 1) (Object.Boolean false) cons (some alt) heap env
          = evalStatement f alt heap env)
  ∧ (∀ (f : Nat) (cons alt : Statement) (heap : Heap) (env : Nat),
        evalIfExpression (f + 1) Object.Null cons (some alt) heap env
          = evalStatement f alt heap env)
  ∧ (∀ (f : Nat) (cons : Statement) (heap : Heap) (env : Nat),
        evalIfExpression (f + 1) (Object.Boolean false) cons none heap env
          = .ok (Object.Null, heap))
  ∧ (∀ (f : Nat) (cons : Statement) (heap : Heap) (env : Nat),
        evalIfExpression (f + 1) Object.Null cons none heap env = .ok (Object.Null, heap))
  ∧ runResult 999 "if (5) \x7b1\x7d else \x7b2\x7d" = some (.ok (Object.Integer 1))
  ∧ runResult 999 "if (!5) \x7b1\x7d else \x7b2\x7d" = some (.ok (Object.Integer 2)) :=
  ⟨fun b => rfl, rfl, fun n => rfl, fun o => rfl, fun ps bd e => rfl,
    rfl, rfl, rfl, fun n => rfl, fun o => rfl, fun ps bd e => rfl,
    fun f n cons alt heap env => rfl, fun f cons alt heap env => rfl,
    fun f cons alt heap env => rfl, fun f cons alt heap env => rfl,
    fun f cons heap env => rfl, fun f cons heap env => rfl, rfl, rfl⟩

/-- C8, counterexample to the claim as stated: `parse_function_parameters`
parses full expressions, so `"fn(5) {}"` is accepted by the parser and the
resulting function literal's parameter is the integer literal `5`, which
is not an `Identifier` expression. -/
theorem claim_C8_counterexample :
    parsedStatements 999 "fn(5) \x7b\x7d"
      = some [Statement.Expression
          (Expression.Function [Expression.Integer 5] (Statement.Block []))]
  ∧ ∀ (s : String), Expression.Integer 5 ≠ Expression.Identifier s := by
  refine ⟨rfl, ?_⟩
  intro s h
  exact Expression.noConfusion h

/-- C8, amended: the parser accepts a parenthesized, comma-separated list
of zero or more arbitrary expressions (not just identifiers) as a
function-literal parameter list; identifier parameters parse to
`Identifier` expressions, but nothing rejects other expressions in
parameter position at parse time — applying a function whose parameter is
not an identifier only fails later, as a panic (`unreachable!`) inside
`apply_function`. -/
theorem claim_C8 :
    parsedStatements 999 "fn() \x7b\x7d"
      = some [Statement.Expression (Expression.Function [] (Statement.Block []))]
  ∧ parsedStatements 999 "fn(x, y) \x7b\x7d"
      = some [Statement.Expression
          (Expression.Function [Expression.Identifier "x", Expression.Identifier "y"]
            (Statement.Block []))]
  ∧ parsedStatements 999 "fn(1 + 2, x) \x7b\x7d"
      = some [Statement.Expression
          (Expression.Function
            [Expression.InfixExpression (Expression.Integer 1) InfixOp.Plus
              (Expression.Integer 2), Expression.Identifier "x"]
            (Statement.Block []))]
  ∧ runResult 999 "fn(5) \x7b\x7d(1);" = some .panic :=
  ⟨rfl, rfl, rfl, rfl⟩

/-- C9: contrary to the object model's intent, `ReturnValue` can escape as
a first-class value: `"return if (true) { return 5; };"` evaluates the
whole program to `ReturnValue (Integer 5)` (the `return` statement wraps
the already-wrapped block result, and the root unwraps only once), and
after `"let a = if (true) { return 5; }; 0;"` the top-level environment
stores `ReturnValue (Integer 5)` under `a`. -/
theorem claim_C9 :
    runResult 999 "return if (true) \x7b return 5; \x7d;"
      = some (.ok (Object.ReturnValue (Object.Integer 5)))
  ∧ runTopBinding 999 "let a = if (true) \x7b return 5; \x7d; 0;" "a"
      = some (Object.ReturnValue (Object.Integer 5)) :=
  ⟨rfl, rfl⟩

/-- C10: a block statement and both if-branches are evaluated in the
enclosing environment itself — the same heap cell index, no new scope —
so a `let` inside an if-block binds into the enclosing environment and
remains visible afterwards; only function application allocates new
environment cells (the heap stays at one cell for the if/let program and
grows only when a function is applied). -/
theorem claim_C10 :
    (∀ (f : Nat) (stmts : List Statement) (heap : Heap) (env : Nat),
        evalStatement (f + 1) (Statement.Block stmts) heap env
          = evalStatements f stmts false heap env)
  ∧ (∀ (f : Nat) (n : Int) (cons : Statement) (alt : Option Statement) (heap : Heap)
        (env : Nat),
        evalIfExpression (f + 1) (Object.Integer n) cons alt heap env
          = evalStatement f cons heap env)
  ∧ (∀ (f : Nat) (cons alt : Statement) (heap : Heap) (env : Nat),
        evalIfExpression (f + 1) (Object.Boolean false) cons (some alt) heap env
          = evalStatement f alt heap env)
  ∧ runResult 999 "if (true) \x7b let z = 42; \x7d z;" = some (.ok (Object.Integer 42))
  ∧ runTopBinding 999 "if (true) \x7b let z = 42; \x7d z;" "z" = some (Object.Integer 42)
  ∧ runHeapLength 999 "if (true) \x7b let z = 42; \x7d z;" = some 1
  ∧ runHeapLength 999 "let f = fn() \x7b 0; \x7d; f();" = some 3 :=
  ⟨fun f stmts heap env => rfl, fun f n cons alt heap env => rfl,
    fun f cons alt heap env => rfl, rfl, rfl, rfl, rfl⟩
